import Mathlib

/-!
Shallow embedding of the eyes-calibration particle-swarm optimizer from
`src/stereoDisparity/disparityThread.h` (struct `Parameters`, struct `Particle`,
class `Optimizer`, and the `EyesCalibration` driver).

Real-valued `double` arithmetic is idealized over `ℝ`; the `cost` field, which
the C++ code initializes to `std::numeric_limits<double>::infinity()`, is
modelled as `EReal` so that the `+inf` sentinel is representable.  The
uniform random sources `Rand::scalar(lo,hi)` and `Rand::vector` (yarp) are
modelled by explicit oracle inputs `u` with `Rand::scalar lo hi = lo + (hi-lo)*u`
for `u ∈ [0,1]`, and `Time::now()` by an explicit oracle real.
-/

noncomputable section

open Real

/-- 4x4 homogeneous transform over the reals (yarp `Matrix` of size 4x4). -/
abbrev Mat4 := Matrix (Fin 4) (Fin 4) ℝ

/-- Two-argument arctangent, the semantics of C `atan2(y,x)` used by
yarp's `dcm2rpy`. -/
def atan2 (y x : ℝ) : ℝ :=
  if 0 < x then Real.arctan (y / x)
  else if x < 0 ∧ 0 ≤ y then Real.arctan (y / x) + π
  else if x < 0 ∧ y < 0 then Real.arctan (y / x) - π
  else if x = 0 ∧ 0 < y then π / 2
  else if x = 0 ∧ y < 0 then -(π / 2)
  else 0

/-- Euclidean norm of a 3-vector (yarp `norm` on a length-3 `Vector`). -/
def norm3 (v : Fin 3 → ℝ) : ℝ := Real.sqrt (∑ k, v k ^ 2)

/-- Euclidean norm of a 6-vector (yarp `norm` on a length-6 `Vector`). -/
def norm6 (v : Fin 6 → ℝ) : ℝ := Real.sqrt (∑ k, v k ^ 2)

/-- Rotation about the z axis embedded in a 4x4 homogeneous matrix, as built
by yarp `rpy2dcm` (matrix `Rz` with angle `yaw`). -/
def rotZ (t : ℝ) : Mat4 := Matrix.of fun i j =>
  if i = 0 ∧ j = 0 then Real.cos t
  else if i = 0 ∧ j = 1 then -Real.sin t
  else if i = 1 ∧ j = 0 then Real.sin t
  else if i = 1 ∧ j = 1 then Real.cos t
  else if i = j then 1 else 0

/-- Rotation about the y axis embedded in a 4x4 homogeneous matrix (`Ry`,
angle `pitch`). -/
def rotY (t : ℝ) : Mat4 := Matrix.of fun i j =>
  if i = 0 ∧ j = 0 then Real.cos t
  else if i = 0 ∧ j = 2 then Real.sin t
  else if i = 2 ∧ j = 0 then -Real.sin t
  else if i = 2 ∧ j = 2 then Real.cos t
  else if i = j then 1 else 0

/-- Rotation about the x axis embedded in a 4x4 homogeneous matrix (`Rx`,
angle `roll`). -/
def rotX (t : ℝ) : Mat4 := Matrix.of fun i j =>
  if i = 1 ∧ j = 1 then Real.cos t
  else if i = 1 ∧ j = 2 then -Real.sin t
  else if i = 2 ∧ j = 1 then Real.sin t
  else if i = 2 ∧ j = 2 then Real.cos t
  else if i = j then 1 else 0

/-- yarp `rpy2dcm`: roll-pitch-yaw vector to a 4x4 homogeneous rotation,
`Rz(yaw) * Ry(pitch) * Rx(roll)`. -/
def rpy2dcm (v : Fin 3 → ℝ) : Mat4 := rotZ (v 2) * rotY (v 1) * rotX (v 0)

/-- yarp `dcm2rpy`: extract roll-pitch-yaw from (the rotation block of) a
homogeneous transform. -/
def dcm2rpy (R : Mat4) : Fin 3 → ℝ :=
  ![atan2 (R 2 1) (R 2 2), Real.arcsin (-(R 2 0)), atan2 (R 1 0) (R 0 0)]

/-- yarp `Matrix::setCol(3, t)` for a length-3 vector `t`: overwrite rows 0..2
of column 3, keeping the remaining entries. -/
def setCol3 (H : Mat4) (t : Fin 3 → ℝ) : Mat4 := Matrix.of fun i j =>
  if h : (i : ℕ) < 3 ∧ j = 3 then t ⟨i, h.1⟩ else H i j

/-- yarp `SE3inv`: exact rigid-body inverse of a homogeneous transform
(transpose of the rotation block, negated rotated translation). -/
def SE3inv (H : Mat4) : Mat4 := Matrix.of fun i j =>
  if hi : (i : ℕ) < 3 then
    if hj : (j : ℕ) < 3 then H ⟨j, by omega⟩ ⟨i, by omega⟩
    else -(∑ k : Fin 3, H k.castSucc ⟨i, by omega⟩ * H k.castSucc 3)
  else if (j : ℕ) = 3 then 1 else 0

/-- `H.getCol(3).subVector(0,2)`: the translation column of a homogeneous
transform. -/
def transl (H : Mat4) : Fin 3 → ℝ := fun k => H k.castSucc 3

/-- `pos.subVector(0,2)`: the translation part of a 6-vector. -/
def translPart (v : Fin 6 → ℝ) : Fin 3 → ℝ := fun k => v ⟨k, by omega⟩

/-- The mirrored parameter vector built inside `Optimizer::getExtrinsics`:
`y = x; y[0] = -y[0]; y[5] = -y[5];`. -/
def mirrorVec (v : Fin 6 → ℝ) : Fin 6 → ℝ :=
  let y1 := Function.update v 0 (-(v 0))
  Function.update y1 5 (-(y1 5))

/-- The right extrinsic transform of `Optimizer::getExtrinsics`:
`Hr = rpy2dcm(x.subVector(3,5)); Hr.setCol(3, x.subVector(0,2))`. -/
def HrOf (v : Fin 6 → ℝ) : Mat4 :=
  setCol3 (rpy2dcm fun k => v ⟨(k : ℕ) + 3, by omega⟩) (fun k => v ⟨k, by omega⟩)

/-- The left extrinsic transform of `Optimizer::getExtrinsics`, built by the
same recipe from the mirrored vector `y`. -/
def HlOf (v : Fin 6 → ℝ) : Mat4 :=
  setCol3 (rpy2dcm fun k => mirrorVec v ⟨(k : ℕ) + 3, by omega⟩)
    (fun k => mirrorVec v ⟨k, by omega⟩)

/-- Modelled from the spec: `eyesCalibration.h` is not among the sources; per
the spec a calibration sample holds the two eye kinematic poses and the
observed relative-pose ("fundamental") transform, all 4x4 homogeneous. -/
structure CalibrationData where
  eye_kin_left : Mat4
  eye_kin_right : Mat4
  fundamental : Mat4

/-- The relative pose predicted for one calibration sample inside
`Optimizer::evaluate`: `D = SE3inv(eye_kin_right*Hr) * (eye_kin_left*Hl)`. -/
def Dof (d : CalibrationData) (pos : Fin 6 → ℝ) : Mat4 :=
  SE3inv (d.eye_kin_right * HrOf pos) * (d.eye_kin_left * HlOf pos)

/-- The three cost terms accumulated per calibration sample in
`Optimizer::evaluate`. -/
def sampleCost (d : CalibrationData) (pos : Fin 6 → ℝ) : ℝ :=
  norm3 (fun k => transl d.fundamental k - transl (Dof d pos) k)
  + norm3 (fun k => dcm2rpy d.fundamental k - dcm2rpy (Dof d pos) k)
  + 0.1 * norm3 (translPart pos)

/-- The cost value computed by `Optimizer::evaluate` on a position: zero when
the sample store is empty, otherwise the accumulated per-sample cost divided
by the sample count. -/
def evalCost (data : List CalibrationData) (pos : Fin 6 → ℝ) : ℝ :=
  if 0 < data.length then
    (data.foldl (fun acc d => acc + sampleCost d pos) 0) / (data.length : ℝ)
  else 0

/-- A PSO particle (`struct Particle`): position, velocity, last cost.  The
cost is `EReal` because the default constructor sets it to `+inf`. -/
structure Particle where
  pos : Fin 6 → ℝ
  vel : Fin 6 → ℝ
  cost : EReal

/-- `Particle()`: zero position and velocity, infinite cost. -/
def defaultParticle : Particle := ⟨fun _ => 0, fun _ => 0, ⊤⟩

/-- `Optimizer::evaluate`: writes the cost into the particle and also returns
it. -/
def evaluate (data : List CalibrationData) (particle : Particle) :
    Particle × ℝ :=
  ({ particle with cost := ((evalCost data particle.pos : ℝ) : EReal) },
    evalCost data particle.pos)

/-- `struct Parameters` of the optimizer.  `numParticles` and `maxIter` are
C++ `int`s (modelled as `ℤ`), `maxT` is a `double` whose default is
`+inf` (modelled as `EReal`), and `lim` is the 6x2 bounds matrix. -/
structure Parameters where
  numParticles : ℤ
  maxIter : ℤ
  maxT : EReal
  omega : ℝ
  phi_p : ℝ
  phi_g : ℝ
  cost : ℝ
  lim : Fin 6 → Fin 2 → ℝ

/-- The default bounds matrix set by the `Parameters` constructor:
translation rows `[-0.1, 0.1]`, orientation rows `[-pi, pi]`,
`[-pi/2, pi/2]`, `[-pi, pi]`. -/
def defaultLim : Fin 6 → Fin 2 → ℝ := fun j k =>
  if (j : ℕ) < 3 then (if k = 0 then -0.1 else 0.1)
  else if (j : ℕ) = 4 then (if k = 0 then -(π / 2) else π / 2)
  else (if k = 0 then -π else π)

/-- `Parameters()`: the default-constructed configuration.
`maxIter` is `std::numeric_limits<int>::max() = 2^31 - 1` and `maxT` is
`std::numeric_limits<double>::infinity()`. -/
def defaultParameters : Parameters where
  numParticles := 20
  maxIter := 2147483647
  maxT := ⊤
  omega := 0.8
  phi_p := 0.1
  phi_g := 0.1
  cost := 0
  lim := defaultLim

/-- yarp `Rand::scalar(lo, hi)`: a uniform draw in `[lo, hi]`, written
`lo + (hi - lo) * u` for an oracle value `u ∈ [0, 1]`. -/
def randScalar (lo hi u : ℝ) : ℝ := lo + (hi - lo) * u

/-- The swarm state owned by the `Optimizer`: the particle deque `x` (of size
`n`), the personal bests `p`, the global best `g`, the iteration counter and
the timer values. -/
structure OptState where
  n : ℕ
  x : ℕ → Particle
  p : ℕ → Particle
  g : Particle
  iter : ℤ
  t : ℝ
  t0 : ℝ

/-- `Optimizer::randomize`: redraw position components uniformly inside the
per-dimension bounds and velocities from the fixed small ranges
(`±1e-4` for translation, `±1°` in radians for orientation), for each of the
`n` live particles.  Costs are not touched.  `u` and `uv` are the uniform
`[0,1]` oracle draws consumed by `Rand::scalar`. -/
def randomize (pr : Parameters) (u uv : ℕ → Fin 6 → ℝ) (n : ℕ)
    (x : ℕ → Particle) : ℕ → Particle := fun i =>
  if i < n then
    { pos := fun j => randScalar (pr.lim j 0) (pr.lim j 1) (u i j)
      vel := fun j =>
        if (j : ℕ) < 3 then randScalar (-1e-4) 1e-4 (uv i j)
        else randScalar (-1) 1 (uv i j) * (π / 180)
      cost := (x i).cost }
  else x i

/-- The velocity update of `Optimizer::step` for particle `i`:
`omega*vel + phi_p*r1.*(p[i].pos - x[i].pos) + phi_g*r2.*(g.pos - x[i].pos)`. -/
def velUpd (pr : Parameters) (r1 r2 : Fin 6 → ℝ) (s : OptState) (i : ℕ) :
    Fin 6 → ℝ := fun j =>
  pr.omega * (s.x i).vel j
    + pr.phi_p * r1 j * ((s.p i).pos j - (s.x i).pos j)
    + pr.phi_g * r2 j * (s.g.pos j - (s.x i).pos j)

/-- The position update of `Optimizer::step` for particle `i`:
`pos += vel` followed by per-dimension clamping
`pos[j] = min(max(pos[j], lim(j,0)), lim(j,1))`. -/
def posUpd (pr : Parameters) (r1 r2 : Fin 6 → ℝ) (s : OptState) (i : ℕ) :
    Fin 6 → ℝ := fun j =>
  min (max ((s.x i).pos j + velUpd pr r1 r2 s i j) (pr.lim j 0)) (pr.lim j 1)

/-- The body of the per-particle loop in `Optimizer::step` for particle `i`:
velocity update, position update, clamping into the bounds, evaluation, and
the personal-best / global-best replacement. -/
def stepOne (pr : Parameters) (data : List CalibrationData)
    (r1 r2 : Fin 6 → ℝ) (s : OptState) (i : ℕ) : OptState :=
  let vel := velUpd pr r1 r2 s i
  let pos := posUpd pr r1 r2 s i
  let f := evalCost data pos
  let xi' : Particle := ⟨pos, vel, ((f : ℝ) : EReal)⟩
  { s with
    x := Function.update s.x i xi'
    p := if ((f : ℝ) : EReal) < (s.p i).cost then Function.update s.p i xi'
         else s.p
    g := if ((f : ℝ) : EReal) < (s.p i).cost ∧ ((f : ℝ) : EReal) < s.g.cost
         then xi' else s.g }

/-- The particle sweep of `Optimizer::step` on the first `k` particle
indices, in the sequential order of the C++ loop (`r1 i`, `r2 i` are the two
fresh random vectors drawn for particle `i`). -/
def sweepPre (pr : Parameters) (data : List CalibrationData)
    (r1 r2 : ℕ → Fin 6 → ℝ) (s : OptState) : ℕ → OptState
  | 0 => s
  | k + 1 => stepOne pr data (r1 k) (r2 k) (sweepPre pr data r1 r2 s k) k

/-- The random oracle consumed by one `Optimizer::step` call: the per-particle
vectors `r1`, `r2`, the draws `u`, `uv` used if the stagnation
re-randomization fires, and the `Time::now()` reading. -/
structure StepRand where
  r1 : ℕ → Fin 6 → ℝ
  r2 : ℕ → Fin 6 → ℝ
  u : ℕ → Fin 6 → ℝ
  uv : ℕ → Fin 6 → ℝ
  now : ℝ

/-- The mean distance of the particles from the global best computed every
100 iterations in `Optimizer::step`. -/
def meanDist (s : OptState) : ℝ :=
  let m := ∑ i ∈ Finset.range s.n, norm6 (fun j => s.g.pos j - (s.x i).pos j)
  if 0 < s.n then m / (s.n : ℝ) else m

/-- The state after one completed `Optimizer::step` call: increment the
iteration counter, sweep over all particles, re-randomize the swarm on
stagnation every 100 iterations, and update the elapsed time. -/
def stepState (pr : Parameters) (data : List CalibrationData) (o : StepRand)
    (s : OptState) : OptState :=
  let s1 := sweepPre pr data o.r1 o.r2 s s.n
  let iter1 := s.iter + 1
  let s2 := if iter1 % 100 = 0 ∧ meanDist s1 < 0.005
            then { s1 with x := randomize pr o.u o.uv s1.n s1.x }
            else s1
  { s2 with iter := iter1, t := o.now - s.t0 }

/-- The boolean returned by `Optimizer::step` (true = keep iterating):
`iter < maxIter && g.cost > parameters.cost && t < maxT`. -/
def stepCont (pr : Parameters) (data : List CalibrationData) (o : StepRand)
    (s : OptState) : Prop :=
  (stepState pr data o s).iter < pr.maxIter
    ∧ ((pr.cost : ℝ) : EReal) < (stepState pr data o s).g.cost
    ∧ (((stepState pr data o s).t : ℝ) : EReal) < pr.maxT

/-- The random oracle consumed by `Optimizer::init`. -/
structure InitRand where
  u : ℕ → Fin 6 → ℝ
  uv : ℕ → Fin 6 → ℝ
  now : ℝ

/-- The personal-best evaluation loop of `Optimizer::init` on the first `k`
indices: evaluate `p[i]` in place and replace `g` whenever the returned cost
beats it. -/
def initFold (data : List CalibrationData) (x : ℕ → Particle) :
    ℕ → (ℕ → Particle) × Particle
  | 0 => (x, defaultParticle)
  | k + 1 =>
    let pg := initFold data x k
    let e := evaluate data (pg.1 k)
    (Function.update pg.1 k e.1,
      if ((e.2 : ℝ) : EReal) < pg.2.cost then e.1 else pg.2)

/-- `Optimizer::init` on a freshly constructed `Optimizer` (whose `g` is the
default particle with infinite cost): allocate and randomize `numParticles`
particles, copy them to the personal bests, evaluate those and track the
global best, then reset the iteration counter and the timer. -/
def initState (pr : Parameters) (data : List CalibrationData) (o : InitRand) :
    OptState :=
  let n := pr.numParticles.toNat
  let x := randomize pr o.u o.uv n (fun _ => defaultParticle)
  let pg := initFold data x n
  { n := n, x := x, p := pg.1, g := pg.2, iter := 0, t := 0, t0 := o.now }

/-- `Optimizer::finalize`: log and return the global best (by const
reference). -/
def finalize (s : OptState) : Particle := s.g

/-- The optimizer states reachable by `init()` followed by any number of
completed `step()` calls, for arbitrary random-oracle values. -/
inductive Reachable (pr : Parameters) (data : List CalibrationData) :
    OptState → Prop where
  | init (o : InitRand) : Reachable pr data (initState pr data o)
  | step (o : StepRand) {s : OptState} :
      Reachable pr data s → Reachable pr data (stepState pr data o s)

/-- The swarm invariant: the global best costs no more than any personal
best, and each personal best carries the cost of its own recorded
position. -/
def swarmInv (data : List CalibrationData) (s : OptState) : Prop :=
  ∀ i, i < s.n →
    s.g.cost ≤ (s.p i).cost
      ∧ (s.p i).cost = ((evalCost data (s.p i).pos : ℝ) : EReal)

/-- A 6-vector with a single (possibly) nonzero leading component. -/
def posA (a : ℝ) : Fin 6 → ℝ := fun j => if j = 0 then a else 0

/-- A 3-vector with a single (possibly) nonzero leading component. -/
def tvec (c : ℝ) : Fin 3 → ℝ := fun k => if k = 0 then c else 0

/-- The velocity drawn for the single particle of the concrete
counterexample run. -/
def velA : Fin 6 → ℝ := fun j => if j = 0 then -1e-4 else 0

/-- The velocity of that particle after one step (`0.8 * velA`). -/
def velB : Fin 6 → ℝ := fun j => if j = 0 then -8e-5 else 0

/-- A calibration sample whose kinematic poses and fundamental transform are
all the identity. -/
def idSample : CalibrationData := ⟨1, 1, 1⟩

/-- Concrete parameters for the counterexample run: a single particle,
otherwise the defaults. -/
def cParams : Parameters := { defaultParameters with numParticles := 1 }

/-- Concrete `init()` oracle: the position draw for dimension 0 is `1`
(hitting the upper bound `0.1`), all other position draws are `1/2`
(hitting the middle of the bounds); the velocity draw for dimension 0 is `0`
(giving `-1e-4`), the rest are `1/2` (giving `0`). -/
def cInit : InitRand :=
  ⟨fun _ j => if j = 0 then 1 else 1 / 2, fun _ j => if j = 0 then 0 else 1 / 2, 0⟩

/-- Concrete `step()` oracle (the drawn values are irrelevant for the
counterexample since the single particle sits exactly at the global best). -/
def cStep : StepRand :=
  ⟨fun _ _ => 1 / 2, fun _ _ => 1 / 2, fun _ _ => 1 / 2, fun _ _ => 1 / 2, 0⟩

/-- The state of the counterexample run right after `init()`. -/
def cState1 : OptState := initState cParams [idSample] cInit

/-- The particle the counterexample run holds after `init()`: position
`(0.1, 0, 0, 0, 0, 0)`, velocity `(-1e-4, 0, 0, 0, 0, 0)`, cost
`2.1 * 0.1 = 0.21`. -/
def cBest : Particle := ⟨posA 0.1, velA, ((0.21 : ℝ) : EReal)⟩

/-- Simple witness parameters: one particle, bounds `[-1, 1]` in every
dimension, cost threshold 0. -/
def wParams : Parameters :=
  ⟨1, 5, ⊤, 0.8, 0.1, 0.1, 0, fun _ k => if k = 0 then -1 else 1⟩

/-- A witness `init()` oracle with all uniform draws at `1/2`. -/
def wInit : InitRand := ⟨fun _ _ => 1 / 2, fun _ _ => 1 / 2, 0⟩

/-- A witness `step()` oracle with all uniform draws at `1/2`. -/
def wStep : StepRand :=
  ⟨fun _ _ => 1 / 2, fun _ _ => 1 / 2, fun _ _ => 1 / 2, fun _ _ => 1 / 2, 0⟩

/-- A particle resting at the origin with zero velocity and cost 0. -/
def wParticle : Particle := ⟨fun _ => 0, fun _ => 0, ((0 : ℝ) : EReal)⟩

/-- A one-particle witness state at iteration 99, fully converged onto its
own global best. -/
def wState : OptState :=
  ⟨1, fun _ => wParticle, fun _ => wParticle, wParticle, 99, 0, 0⟩

/-! ### Structural lemmas about the step machinery -/

theorem stepOne_n (pr : Parameters) (data : List CalibrationData)
    (r1 r2 : Fin 6 → ℝ) (s : OptState) (i : ℕ) :
    (stepOne pr data r1 r2 s i).n = s.n := rfl

theorem stepOne_x_self (pr : Parameters) (data : List CalibrationData)
    (r1 r2 : Fin 6 → ℝ) (s : OptState) (i : ℕ) :
    (stepOne pr data r1 r2 s i).x i
      = ⟨posUpd pr r1 r2 s i, velUpd pr r1 r2 s i,
          ((evalCost data (posUpd pr r1 r2 s i) : ℝ) : EReal)⟩ := by
  simp [stepOne]

theorem stepOne_x_ne (pr : Parameters) (data : List CalibrationData)
    (r1 r2 : Fin 6 → ℝ) (s : OptState) {i k : ℕ} (h : k ≠ i) :
    (stepOne pr data r1 r2 s i).x k = s.x k := by
  simp [stepOne, Function.update_noteq h]

theorem stepOne_p_eq (pr : Parameters) (data : List CalibrationData)
    (r1 r2 : Fin 6 → ℝ) (s : OptState) (i : ℕ) :
    (stepOne pr data r1 r2 s i).p
      = if ((evalCost data (posUpd pr r1 r2 s i) : ℝ) : EReal) < (s.p i).cost
        then Function.update s.p i
          ⟨posUpd pr r1 r2 s i, velUpd pr r1 r2 s i,
            ((evalCost data (posUpd pr r1 r2 s i) : ℝ) : EReal)⟩
        else s.p := rfl

theorem stepOne_g_eq (pr : Parameters) (data : List CalibrationData)
    (r1 r2 : Fin 6 → ℝ) (s : OptState) (i : ℕ) :
    (stepOne pr data r1 r2 s i).g
      = if ((evalCost data (posUpd pr r1 r2 s i) : ℝ) : EReal) < (s.p i).cost
          ∧ ((evalCost data (posUpd pr r1 r2 s i) : ℝ) : EReal) < s.g.cost
        then ⟨posUpd pr r1 r2 s i, velUpd pr r1 r2 s i,
            ((evalCost data (posUpd pr r1 r2 s i) : ℝ) : EReal)⟩
        else s.g := rfl

theorem sweepPre_n (pr : Parameters) (data : List CalibrationData)
    (r1 r2 : ℕ → Fin 6 → ℝ) (s : OptState) :
    ∀ k, (sweepPre pr data r1 r2 s k).n = s.n := by
  intro k
  induction k with
  | zero => rfl
  | succ k ih => simp [sweepPre, stepOne_n, ih]

theorem stepOne_g_le (pr : Parameters) (data : List CalibrationData)
    (r1 r2 : Fin 6 → ℝ) (s : OptState) (i : ℕ) :
    (stepOne pr data r1 r2 s i).g.cost ≤ s.g.cost := by
  rw [stepOne_g_eq]
  by_cases hc : ((evalCost data (posUpd pr r1 r2 s i) : ℝ) : EReal) < (s.p i).cost
      ∧ ((evalCost data (posUpd pr r1 r2 s i) : ℝ) : EReal) < s.g.cost
  · rw [if_pos hc]
    exact le_of_lt hc.2
  · rw [if_neg hc]

theorem sweepPre_g_le (pr : Parameters) (data : List CalibrationData)
    (r1 r2 : ℕ → Fin 6 → ℝ) (s : OptState) :
    ∀ k, (sweepPre pr data r1 r2 s k).g.cost ≤ s.g.cost := by
  intro k
  induction k with
  | zero => exact le_refl _
  | succ k ih => exact le_trans (stepOne_g_le pr data (r1 k) (r2 k) _ k) ih

theorem stepState_p (pr : Parameters) (data : List CalibrationData)
    (o : StepRand) (s : OptState) :
    (stepState pr data o s).p = (sweepPre pr data o.r1 o.r2 s s.n).p := by
  simp only [stepState]
  split <;> rfl

theorem stepState_g (pr : Parameters) (data : List CalibrationData)
    (o : StepRand) (s : OptState) :
    (stepState pr data o s).g = (sweepPre pr data o.r1 o.r2 s s.n).g := by
  simp only [stepState]
  split <;> rfl

theorem stepState_n (pr : Parameters) (data : List CalibrationData)
    (o : StepRand) (s : OptState) :
    (stepState pr data o s).n = s.n := by
  simp only [stepState]
  split <;> simp [sweepPre_n]

theorem stepState_iter (pr : Parameters) (data : List CalibrationData)
    (o : StepRand) (s : OptState) :
    (stepState pr data o s).iter = s.iter + 1 := rfl

theorem stepState_x_rerand (pr : Parameters) (data : List CalibrationData)
    (o : StepRand) (s : OptState)
    (h : (s.iter + 1) % 100 = 0
      ∧ meanDist (sweepPre pr data o.r1 o.r2 s s.n) < 0.005) :
    (stepState pr data o s).x
      = randomize pr o.u o.uv s.n (sweepPre pr data o.r1 o.r2 s s.n).x := by
  simp only [stepState]
  rw [if_pos h, sweepPre_n]

theorem stepState_x_nor (pr : Parameters) (data : List CalibrationData)
    (o : StepRand) (s : OptState)
    (h : ¬((s.iter + 1) % 100 = 0
      ∧ meanDist (sweepPre pr data o.r1 o.r2 s s.n) < 0.005)) :
    (stepState pr data o s).x = (sweepPre pr data o.r1 o.r2 s s.n).x := by
  simp only [stepState]
  rw [if_neg h]

theorem stepState_g_le (pr : Parameters) (data : List CalibrationData)
    (o : StepRand) (s : OptState) :
    (stepState pr data o s).g.cost ≤ s.g.cost := by
  rw [stepState_g]
  exact sweepPre_g_le pr data o.r1 o.r2 s s.n

/-! ### The swarm invariant -/

theorem stepOne_swarmInv (pr : Parameters) (data : List CalibrationData)
    (r1 r2 : Fin 6 → ℝ) (s : OptState) (i : ℕ) (h : swarmInv data s) :
    swarmInv data (stepOne pr data r1 r2 s i) := by
  intro k hk
  rw [stepOne_n] at hk
  rw [stepOne_p_eq, stepOne_g_eq]
  by_cases hlt :
      ((evalCost data (posUpd pr r1 r2 s i) : ℝ) : EReal) < (s.p i).cost
  · rw [if_pos hlt]
    by_cases hgi :
        ((evalCost data (posUpd pr r1 r2 s i) : ℝ) : EReal) < s.g.cost
    · rw [if_pos ⟨hlt, hgi⟩]
      by_cases hki : k = i
      · subst hki
        rw [Function.update_same]
        exact ⟨le_refl _, rfl⟩
      · rw [Function.update_noteq hki]
        exact ⟨le_trans (le_of_lt hgi) (h k hk).1, (h k hk).2⟩
    · rw [if_neg (fun hc => hgi hc.2)]
      by_cases hki : k = i
      · subst hki
        rw [Function.update_same]
        exact ⟨not_lt.mp hgi, rfl⟩
      · rw [Function.update_noteq hki]
        exact h k hk
  · rw [if_neg hlt, if_neg (fun hc => hlt hc.1)]
    exact h k hk

theorem sweepPre_swarmInv (pr : Parameters) (data : List CalibrationData)
    (r1 r2 : ℕ → Fin 6 → ℝ) (s : OptState) (h : swarmInv data s) :
    ∀ k, swarmInv data (sweepPre pr data r1 r2 s k) := by
  intro k
  induction k with
  | zero => exact h
  | succ k ih => exact stepOne_swarmInv pr data (r1 k) (r2 k) _ k ih

theorem stepState_swarmInv (pr : Parameters) (data : List CalibrationData)
    (o : StepRand) (s : OptState) (h : swarmInv data s) :
    swarmInv data (stepState pr data o s) := by
  intro i hi
  rw [stepState_n] at hi
  have hi' : i < (sweepPre pr data o.r1 o.r2 s s.n).n := by
    rw [sweepPre_n]
    exact hi
  have h1 := sweepPre_swarmInv pr data o.r1 o.r2 s h s.n i hi'
  rw [stepState_p, stepState_g]
  exact h1

theorem initFold_spec (data : List CalibrationData) (x : ℕ → Particle) :
    ∀ k i, i < k →
      ((initFold data x k).1 i).cost
          = ((evalCost data ((initFold data x k).1 i).pos : ℝ) : EReal)
        ∧ (initFold data x k).2.cost ≤ ((initFold data x k).1 i).cost := by
  intro k
  induction k with
  | zero =>
    intro i hi
    omega
  | succ k ih =>
    intro i hi
    simp only [initFold, evaluate]
    by_cases hik : i = k
    · subst hik
      rw [Function.update_same]
      refine ⟨rfl, ?_⟩
      by_cases hlt :
          ((evalCost data ((initFold data x i).1 i).pos : ℝ) : EReal)
            < (initFold data x i).2.cost
      · rw [if_pos hlt]
      · rw [if_neg hlt]
        exact not_lt.mp hlt
    · have hik' : i < k := by omega
      rw [Function.update_noteq hik]
      refine ⟨(ih i hik').1, ?_⟩
      by_cases hlt :
          ((evalCost data ((initFold data x k).1 k).pos : ℝ) : EReal)
            < (initFold data x k).2.cost
      · rw [if_pos hlt]
        exact le_trans (le_of_lt hlt) (ih i hik').2
      · rw [if_neg hlt]
        exact (ih i hik').2

theorem initState_swarmInv (pr : Parameters) (data : List CalibrationData)
    (o : InitRand) : swarmInv data (initState pr data o) := by
  intro i hi
  have h := initFold_spec data
    (randomize pr o.u o.uv pr.numParticles.toNat fun _ => defaultParticle)
    pr.numParticles.toNat i hi
  exact ⟨h.2, h.1⟩

theorem reachable_swarmInv {pr : Parameters} {data : List CalibrationData}
    {s : OptState} (h : Reachable pr data s) : swarmInv data s := by
  induction h with
  | init o => exact initState_swarmInv pr data o
  | step o hr ih => exact stepState_swarmInv pr data _ _ ih

/-! ### Per-particle tracking through the sweep -/

theorem sweepPre_x_stable (pr : Parameters) (data : List CalibrationData)
    (r1 r2 : ℕ → Fin 6 → ℝ) (s : OptState) (i : ℕ) :
    ∀ k, i < k →
      (sweepPre pr data r1 r2 s k).x i = (sweepPre pr data r1 r2 s (i + 1)).x i := by
  intro k
  induction k with
  | zero => omega
  | succ k ih =>
    intro hik
    by_cases hik' : i = k
    · subst hik'
      rfl
    · have h1 : i < k := by omega
      calc (sweepPre pr data r1 r2 s (k + 1)).x i
          = (sweepPre pr data r1 r2 s k).x i :=
            stepOne_x_ne pr data (r1 k) (r2 k) _ (by omega)
        _ = (sweepPre pr data r1 r2 s (i + 1)).x i := ih h1

theorem sweepPre_x_self (pr : Parameters) (data : List CalibrationData)
    (r1 r2 : ℕ → Fin 6 → ℝ) (s : OptState) (i : ℕ) :
    (sweepPre pr data r1 r2 s (i + 1)).x i
      = ⟨posUpd pr (r1 i) (r2 i) (sweepPre pr data r1 r2 s i) i,
          velUpd pr (r1 i) (r2 i) (sweepPre pr data r1 r2 s i) i,
          ((evalCost data
              (posUpd pr (r1 i) (r2 i) (sweepPre pr data r1 r2 s i) i) : ℝ)
            : EReal)⟩ :=
  stepOne_x_self pr data (r1 i) (r2 i) _ i

/-! ### Bounds -/

theorem randScalar_mem {lo hi u : ℝ} (hlim : lo ≤ hi) (h0 : 0 ≤ u)
    (h1 : u ≤ 1) : lo ≤ randScalar lo hi u ∧ randScalar lo hi u ≤ hi := by
  unfold randScalar
  constructor
  · nlinarith
  · nlinarith

theorem posUpd_mem (pr : Parameters) (r1 r2 : Fin 6 → ℝ) (s : OptState)
    (i : ℕ) (j : Fin 6) (hlim : pr.lim j 0 ≤ pr.lim j 1) :
    pr.lim j 0 ≤ posUpd pr r1 r2 s i j ∧ posUpd pr r1 r2 s i j ≤ pr.lim j 1 := by
  unfold posUpd
  exact ⟨le_min (le_max_right _ _) hlim, min_le_right _ _⟩

theorem sweepPre_pos_mem (pr : Parameters) (data : List CalibrationData)
    (r1 r2 : ℕ → Fin 6 → ℝ) (s : OptState) (j : Fin 6)
    (hlim : pr.lim j 0 ≤ pr.lim j 1) :
    ∀ k i, i < k →
      pr.lim j 0 ≤ ((sweepPre pr data r1 r2 s k).x i).pos j
        ∧ ((sweepPre pr data r1 r2 s k).x i).pos j ≤ pr.lim j 1 := by
  intro k
  induction k with
  | zero =>
    intro i hi
    omega
  | succ k ih =>
    intro i hi
    by_cases hik : i = k
    · subst hik
      rw [sweepPre, stepOne_x_self]
      exact posUpd_mem pr (r1 i) (r2 i) _ i j hlim
    · have h1 : i < k := by omega
      rw [sweepPre, stepOne_x_ne pr data (r1 k) (r2 k) _ (by omega)]
      exact ih i h1

/-- Claim C1: for every optimizer state reachable by `init()` followed by
any number of completed `step()` calls (with `numParticles >= 1`), the
global best cost is at most every personal best cost, and each personal
best's cost equals the cost of its own recorded position (the snapshot of
`x[i]` taken when that personal best was last updated). -/
theorem pso_best_invariant (pr : Parameters) (data : List CalibrationData)
    (s : OptState) (_hn : 1 ≤ pr.numParticles) (hs : Reachable pr data s)
    (i : ℕ) (hi : i < s.n) :
    s.g.cost ≤ (s.p i).cost
      ∧ (s.p i).cost = ((evalCost data (s.p i).pos : ℝ) : EReal) :=
  reachable_swarmInv hs i hi

/-- Witness for C1 at a concrete one-particle run on an empty sample
store. -/
theorem pso_best_invariant_witness :
    1 ≤ wParams.numParticles
      ∧ 0 < (initState wParams [] wInit).n
      ∧ (initState wParams [] wInit).g.cost
          ≤ ((initState wParams [] wInit).p 0).cost :=
  ⟨by norm_num [wParams], by norm_num [initState, wParams],
    (pso_best_invariant wParams [] _ (by norm_num [wParams])
      (Reachable.init wInit) 0 (by norm_num [initState, wParams])).1⟩

/-- Claim C2: after every completed `step()`, every live particle's position
components lie within the configured bounds, both on the ordinary clamped
update and on the stagnation re-randomization path (whose uniform draws `u`
lie in `[0,1]`), for well-formed bounds `lim(j,0) <= lim(j,1)`. -/
theorem step_positions_in_bounds (pr : Parameters)
    (data : List CalibrationData) (o : StepRand) (s : OptState)
    (hlim : ∀ j : Fin 6, pr.lim j 0 ≤ pr.lim j 1)
    (hu : ∀ i j, 0 ≤ o.u i j ∧ o.u i j ≤ 1)
    (i : ℕ) (hi : i < s.n) (j : Fin 6) :
    pr.lim j 0 ≤ ((stepState pr data o s).x i).pos j
      ∧ ((stepState pr data o s).x i).pos j ≤ pr.lim j 1 := by
  by_cases hc : (s.iter + 1) % 100 = 0
      ∧ meanDist (sweepPre pr data o.r1 o.r2 s s.n) < 0.005
  · rw [stepState_x_rerand pr data o s hc]
    simp only [randomize]
    rw [if_pos hi]
    exact randScalar_mem (hlim j) (hu i j).1 (hu i j).2
  · rw [stepState_x_nor pr data o s hc]
    exact sweepPre_pos_mem pr data o.r1 o.r2 s j (hlim j) s.n i hi

/-- Witness for C2 at a concrete one-particle state with bounds
`[-1, 1]`. -/
theorem step_positions_in_bounds_witness :
    wParams.lim 0 0 ≤ ((stepState wParams [] wStep wState).x 0).pos 0
      ∧ ((stepState wParams [] wStep wState).x 0).pos 0 ≤ wParams.lim 0 1 :=
  step_positions_in_bounds wParams [] wStep wState
    (fun j => by norm_num [wParams]) (fun i j => by norm_num [wStep])
    0 (by norm_num [wState]) 0

/-- Claim C3: inside every `step()`, particle `i` is processed by the
velocity-update formula
`vel = omega*vel + phi_p*r1.*(p[i].pos - pos) + phi_g*r2.*(g.pos - pos)`
(with `p[i]` and `g` as they stand when particle `i`'s turn comes in the
sequential loop), then `pos = pos + vel` clamped per dimension into the
bounds, then the particle's cost is the evaluation of the clamped
position; that value is what the sweep leaves in `x[i]`, and it is the
particle's state after `step()` whenever the separate stagnation
re-randomization does not fire. -/
theorem step_update_rule (pr : Parameters) (data : List CalibrationData)
    (o : StepRand) (s : OptState) (i : ℕ) (_hi : i < s.n) :
    ((sweepPre pr data o.r1 o.r2 s (i + 1)).x i).vel
        = (fun j =>
            pr.omega * ((sweepPre pr data o.r1 o.r2 s i).x i).vel j
              + pr.phi_p * o.r1 i j
                * (((sweepPre pr data o.r1 o.r2 s i).p i).pos j
                    - ((sweepPre pr data o.r1 o.r2 s i).x i).pos j)
              + pr.phi_g * o.r2 i j
                * ((sweepPre pr data o.r1 o.r2 s i).g.pos j
                    - ((sweepPre pr data o.r1 o.r2 s i).x i).pos j))
      ∧ ((sweepPre pr data o.r1 o.r2 s (i + 1)).x i).pos
          = (fun j =>
              min (max (((sweepPre pr data o.r1 o.r2 s i).x i).pos j
                  + ((sweepPre pr data o.r1 o.r2 s (i + 1)).x i).vel j)
                (pr.lim j 0)) (pr.lim j 1))
      ∧ ((sweepPre pr data o.r1 o.r2 s (i + 1)).x i).cost
          = ((evalCost data
              ((sweepPre pr data o.r1 o.r2 s (i + 1)).x i).pos : ℝ) : EReal)
      ∧ (∀ k, i < k →
          (sweepPre pr data o.r1 o.r2 s k).x i
            = (sweepPre pr data o.r1 o.r2 s (i + 1)).x i)
      ∧ (¬((s.iter + 1) % 100 = 0
            ∧ meanDist (sweepPre pr data o.r1 o.r2 s s.n) < 0.005) →
          (stepState pr data o s).x i
            = (sweepPre pr data o.r1 o.r2 s s.n).x i) := by
  refine ⟨?_, ?_, ?_, sweepPre_x_stable pr data o.r1 o.r2 s i,
    fun hc => congrFun (stepState_x_nor pr data o s hc) i⟩
  · rw [sweepPre_x_self]
    rfl
  · rw [sweepPre_x_self]
    rfl
  · rw [sweepPre_x_self]

/-- Witness for C3 at a concrete one-particle state. -/
theorem step_update_rule_witness :
    ((sweepPre wParams [] wStep.r1 wStep.r2 wState (0 + 1)).x 0).cost
      = ((evalCost []
          ((sweepPre wParams [] wStep.r1 wStep.r2 wState (0 + 1)).x 0).pos : ℝ)
        : EReal) :=
  (step_update_rule wParams [] wStep wState 0 (by norm_num [wState])).2.2.1

/-- Claim C5: the left extrinsic transform computed from `x` equals the
right extrinsic transform that `getExtrinsics` would compute from `x` with
components 0 and 5 sign-negated and all others equal. -/
theorem getExtrinsics_mirror (v : Fin 6 → ℝ) :
    HlOf v = HrOf (fun j => if j = 0 ∨ j = 5 then -(v j) else v j) := by
  have hm : mirrorVec v = fun j => if j = 0 ∨ j = 5 then -(v j) else v j := by
    funext j
    fin_cases j <;> simp [mirrorVec, Function.update_apply]
  unfold HlOf HrOf
  rw [hm]

/-- Counterexample to claim C9 as stated: the default `maxIter` is
`std::numeric_limits<int>::max()`, a finite bound, not `+inf` (no integer
default could exceed it). -/
theorem defaults_maxIter_not_infinite :
    ¬ ∀ m : ℤ, m < defaultParameters.maxIter := by
  intro h
  exact lt_irrefl _ (h defaultParameters.maxIter)

/-- Claim C9 as amended: the default parameters are `numParticles = 20`,
`maxIter = 2^31 - 1` (the largest `int`, an effectively unbounded cap),
`maxT = +inf`, `omega = 0.8`, `phi_p = phi_g = 0.1`, `costThreshold = 0`,
and the 6x2 bounds matrix with rows `[-0.1, 0.1]` for translation and
`[-pi, pi]`, `[-pi/2, pi/2]`, `[-pi, pi]` for orientation. -/
theorem defaults_values :
    defaultParameters.numParticles = 20
      ∧ defaultParameters.maxIter = 2 ^ 31 - 1
      ∧ defaultParameters.maxT = ⊤
      ∧ defaultParameters.omega = 0.8
      ∧ defaultParameters.phi_p = 0.1
      ∧ defaultParameters.phi_g = 0.1
      ∧ defaultParameters.cost = 0
      ∧ defaultParameters.lim 0 0 = -0.1 ∧ defaultParameters.lim 0 1 = 0.1
      ∧ defaultParameters.lim 1 0 = -0.1 ∧ defaultParameters.lim 1 1 = 0.1
      ∧ defaultParameters.lim 2 0 = -0.1 ∧ defaultParameters.lim 2 1 = 0.1
      ∧ defaultParameters.lim 3 0 = -π ∧ defaultParameters.lim 3 1 = π
      ∧ defaultParameters.lim 4 0 = -(π / 2)
      ∧ defaultParameters.lim 4 1 = π / 2
      ∧ defaultParameters.lim 5 0 = -π ∧ defaultParameters.lim 5 1 = π := by
  refine ⟨rfl, by norm_num [defaultParameters], rfl, rfl, rfl, rfl, rfl, ?_⟩
  norm_num [defaultParameters, defaultLim,
    show ((3 : Fin 6) : ℕ) = 3 from rfl, show ((4 : Fin 6) : ℕ) = 4 from rfl,
    show ((5 : Fin 6) : ℕ) = 5 from rfl]

/-! ### Sum lemmas for the cost function -/

theorem foldl_add_map (f : CalibrationData → ℝ) :
    ∀ (l : List CalibrationData) (a : ℝ),
      l.foldl (fun acc d => acc + f d) a = a + (l.map f).sum := by
  intro l
  induction l with
  | nil =>
    intro a
    simp
  | cons d l ih =>
    intro a
    simp only [List.foldl_cons, List.map_cons, List.sum_cons, ih]
    ring

theorem sum_map_add_const (f : CalibrationData → ℝ) (c : ℝ) :
    ∀ l : List CalibrationData,
      (l.map fun d => f d + c).sum = (l.map f).sum + l.length * c := by
  intro l
  induction l with
  | nil => simp
  | cons d l ih =>
    simp only [List.map_cons, List.sum_cons, List.length_cons, ih]
    push_cast
    ring

theorem evalCost_eq (data : List CalibrationData) (hd : data ≠ [])
    (pos : Fin 6 → ℝ) :
    evalCost data pos
      = (data.map fun d => sampleCost d pos).sum / (data.length : ℝ) := by
  unfold evalCost
  rw [if_pos (List.length_pos.mpr hd),
    foldl_add_map (fun d => sampleCost d pos) data 0, zero_add]

/-- Claim C4: on a non-empty sample store, `evaluate` sets the particle's
cost to the mean over the samples of
`norm(fundamental.translation - D.translation)
 + norm(rpy(fundamental) - rpy(D)) + 0.1 * norm(pos[0:3])`
with `D = SE3inv(eye_kin_right*Hr) * (eye_kin_left*Hl)` and
`(Hl, Hr) = getExtrinsics(pos)`, and returns that value. -/
theorem evaluate_mean_cost (data : List CalibrationData) (hd : data ≠ [])
    (particle : Particle) :
    (evaluate data particle).2
        = (data.map fun d =>
            norm3 (fun k =>
                transl d.fundamental k - transl (Dof d particle.pos) k)
              + norm3 (fun k =>
                  dcm2rpy d.fundamental k - dcm2rpy (Dof d particle.pos) k)
              + 0.1 * norm3 (translPart particle.pos)).sum / (data.length : ℝ)
      ∧ (evaluate data particle).1
          = { particle with
              cost := (((evaluate data particle).2 : ℝ) : EReal) } := by
  constructor
  · exact evalCost_eq data hd particle.pos
  · rfl

/-- Witness for C4 on the one-sample identity store. -/
theorem evaluate_mean_cost_witness :
    ([idSample] : List CalibrationData) ≠ []
      ∧ (evaluate [idSample] defaultParticle).1
          = { defaultParticle with
              cost := (((evaluate [idSample] defaultParticle).2 : ℝ)
                : EReal) } :=
  ⟨by simp, (evaluate_mean_cost [idSample] (by simp) defaultParticle).2⟩

/-- Claim C10: because the regularization term `0.1 * norm(pos[0:3])` is
added once per sample and the accumulated sum is divided by the sample
count, its contribution to the returned mean cost is exactly
`0.1 * norm(pos[0:3])`, independent of the number of samples. -/
theorem regularization_per_sample (data : List CalibrationData)
    (hd : data ≠ []) (pos : Fin 6 → ℝ) :
    evalCost data pos
      = (data.map fun d =>
          norm3 (fun k => transl d.fundamental k - transl (Dof d pos) k)
            + norm3 (fun k =>
                dcm2rpy d.fundamental k - dcm2rpy (Dof d pos) k)).sum
          / (data.length : ℝ)
        + 0.1 * norm3 (translPart pos) := by
  rw [evalCost_eq data hd pos]
  have h1 : (data.map fun d => sampleCost d pos).sum
      = (data.map fun d =>
          norm3 (fun k => transl d.fundamental k - transl (Dof d pos) k)
            + norm3 (fun k =>
                dcm2rpy d.fundamental k - dcm2rpy (Dof d pos) k)).sum
        + (data.length : ℝ) * (0.1 * norm3 (translPart pos)) :=
    sum_map_add_const
      (fun d =>
        norm3 (fun k => transl d.fundamental k - transl (Dof d pos) k)
          + norm3 (fun k => dcm2rpy d.fundamental k - dcm2rpy (Dof d pos) k))
      (0.1 * norm3 (translPart pos)) data
  have hN : (0 : ℝ) < (data.length : ℝ) :=
    Nat.cast_pos.mpr (List.length_pos.mpr hd)
  rw [h1, add_div, mul_comm, mul_div_assoc, div_self (ne_of_gt hN), mul_one]

/-! ### The empty sample store and the stagnation escape -/

theorem evalCost_nil (pos : Fin 6 → ℝ) : evalCost [] pos = 0 := by
  simp [evalCost]

theorem initFold_nil_g (x : ℕ → Particle) :
    ∀ k, 1 ≤ k → (initFold [] x k).2.cost = ((0 : ℝ) : EReal) := by
  intro k
  induction k with
  | zero =>
    intro h
    omega
  | succ k ih =>
    intro _
    simp only [initFold, evaluate]
    by_cases hlt : ((evalCost [] ((initFold [] x k).1 k).pos : ℝ) : EReal)
        < (initFold [] x k).2.cost
    · rw [if_pos hlt]
      simp [evalCost_nil]
    · rw [if_neg hlt]
      rcases Nat.eq_zero_or_pos k with hk | hk
      · subst hk
        exfalso
        apply hlt
        rw [evalCost_nil]
        exact EReal.coe_lt_top 0
      · exact ih hk

theorem sweepPre_nil_frozen (pr : Parameters) (r1 r2 : ℕ → Fin 6 → ℝ)
    (s : OptState)
    (hp : ∀ i, i < s.n → (s.p i).cost = ((0 : ℝ) : EReal)) :
    ∀ k, k ≤ s.n →
      (sweepPre pr [] r1 r2 s k).p = s.p
        ∧ (sweepPre pr [] r1 r2 s k).g = s.g := by
  intro k
  induction k with
  | zero =>
    intro _
    exact ⟨rfl, rfl⟩
  | succ k ih =>
    intro hk
    have h1 := ih (by omega)
    have hcond : ¬ ((evalCost []
          (posUpd pr (r1 k) (r2 k) (sweepPre pr [] r1 r2 s k) k) : ℝ) : EReal)
        < ((sweepPre pr [] r1 r2 s k).p k).cost := by
      rw [evalCost_nil, h1.1, hp k (by omega)]
      exact lt_irrefl _
    constructor
    · rw [sweepPre, stepOne_p_eq, if_neg hcond, h1.1]
    · rw [sweepPre, stepOne_g_eq, if_neg (fun hc => hcond hc.1), h1.2]

/-- Claim C8: with an empty calibration sample store, a zero cost threshold
and at least one particle, `init()` leaves every personal best with cost
exactly 0 and a global best of cost exactly 0, and the very first `step()`
returns false, whatever `maxIter`, `maxT` and the elapsed time are. -/
theorem empty_store_trivial (pr : Parameters) (oi : InitRand) (o : StepRand)
    (hc : pr.cost = 0) (hn : 1 ≤ pr.numParticles) :
    (∀ i, i < (initState pr [] oi).n →
        ((initState pr [] oi).p i).cost = ((0 : ℝ) : EReal))
      ∧ (initState pr [] oi).g.cost = ((0 : ℝ) : EReal)
      ∧ ¬ stepCont pr [] o (initState pr [] oi) := by
  have hp : ∀ i, i < (initState pr [] oi).n →
      ((initState pr [] oi).p i).cost = ((0 : ℝ) : EReal) := by
    intro i hi
    have h := initFold_spec []
      (randomize pr oi.u oi.uv pr.numParticles.toNat fun _ => defaultParticle)
      pr.numParticles.toNat i hi
    exact h.1.trans (by rw [evalCost_nil])
  have hg : (initState pr [] oi).g.cost = ((0 : ℝ) : EReal) :=
    initFold_nil_g
      (randomize pr oi.u oi.uv pr.numParticles.toNat fun _ => defaultParticle)
      pr.numParticles.toNat (by omega)
  refine ⟨hp, hg, ?_⟩
  intro hcont
  have h2 := hcont.2.1
  rw [stepState_g] at h2
  have hfroz := sweepPre_nil_frozen pr o.r1 o.r2 (initState pr [] oi) hp
    (initState pr [] oi).n (le_refl _)
  rw [hfroz.2, hg, hc] at h2
  exact lt_irrefl _ h2

/-- Witness for C8 at the concrete one-particle parameters. -/
theorem empty_store_trivial_witness :
    wParams.cost = 0 ∧ 1 ≤ wParams.numParticles
      ∧ ¬ stepCont wParams [] wStep (initState wParams [] wInit) :=
  ⟨rfl, by norm_num [wParams],
    (empty_store_trivial wParams wInit wStep rfl
      (by norm_num [wParams])).2.2⟩

/-- Claim C7: in a `step()` whose (incremented) iteration count is a
multiple of 100 and whose post-sweep mean distance from the global best is
below 0.005, every live particle's position and velocity are re-drawn by
`randomize()` (positions uniform inside the bounds, velocities from the
small fixed ranges) while the personal bests and the global best are
exactly the post-sweep ones — the re-randomization touches neither. -/
theorem stagnation_rerandomize (pr : Parameters)
    (data : List CalibrationData) (o : StepRand) (s : OptState)
    (h100 : (s.iter + 1) % 100 = 0)
    (hm : meanDist (sweepPre pr data o.r1 o.r2 s s.n) < 0.005) :
    (stepState pr data o s).p = (sweepPre pr data o.r1 o.r2 s s.n).p
      ∧ (stepState pr data o s).g = (sweepPre pr data o.r1 o.r2 s s.n).g
      ∧ ∀ i, i < s.n →
          (stepState pr data o s).x i
            = { pos := fun j => randScalar (pr.lim j 0) (pr.lim j 1) (o.u i j)
                vel := fun j =>
                  if (j : ℕ) < 3 then randScalar (-1e-4) 1e-4 (o.uv i j)
                  else randScalar (-1) 1 (o.uv i j) * (π / 180)
                cost := ((sweepPre pr data o.r1 o.r2 s s.n).x i).cost } := by
  refine ⟨stepState_p pr data o s, stepState_g pr data o s, ?_⟩
  intro i hi
  rw [stepState_x_rerand pr data o s ⟨h100, hm⟩]
  simp only [randomize]
  rw [if_pos hi]

/-- The post-sweep mean distance of the converged witness state is zero. -/
theorem wState_meanDist :
    meanDist (sweepPre wParams [] wStep.r1 wStep.r2 wState wState.n) = 0 := by
  have hone : wState.n = 0 + 1 := rfl
  have hx : ((sweepPre wParams [] wStep.r1 wStep.r2 wState (0 + 1)).x 0).pos
      = fun _ => 0 := by
    rw [sweepPre_x_self,
      show sweepPre wParams [] wStep.r1 wStep.r2 wState 0 = wState from rfl]
    funext j
    simp only [posUpd, velUpd, wState, wParticle, wParams, wStep]
    norm_num
  have hg : (sweepPre wParams [] wStep.r1 wStep.r2 wState (0 + 1)).g
      = wParticle := by
    have hcond : ¬ (((evalCost []
          (posUpd wParams (wStep.r1 0) (wStep.r2 0)
            (sweepPre wParams [] wStep.r1 wStep.r2 wState 0) 0) : ℝ) : EReal)
          < ((sweepPre wParams [] wStep.r1 wStep.r2 wState 0).p 0).cost
        ∧ ((evalCost []
          (posUpd wParams (wStep.r1 0) (wStep.r2 0)
            (sweepPre wParams [] wStep.r1 wStep.r2 wState 0) 0) : ℝ) : EReal)
          < (sweepPre wParams [] wStep.r1 wStep.r2 wState 0).g.cost) := by
      intro hcc
      have := hcc.1
      rw [evalCost_nil] at this
      exact lt_irrefl _ this
    rw [sweepPre, stepOne_g_eq, if_neg hcond]
    rfl
  have hn1 : (sweepPre wParams [] wStep.r1 wStep.r2 wState (0 + 1)).n = 1 := by
    rw [sweepPre_n]
    rfl
  rw [hone]
  simp only [meanDist, hn1, Finset.sum_range_one, hx, hg]
  simp [norm6, wParticle]

/-- Witness for C7 at iteration 99 of a fully converged one-particle
state. -/
theorem stagnation_rerandomize_witness :
    (wState.iter + 1) % 100 = 0
      ∧ (stepState wParams [] wStep wState).p
          = (sweepPre wParams [] wStep.r1 wStep.r2 wState wState.n).p :=
  ⟨by norm_num [wState],
    (stagnation_rerandomize wParams [] wStep wState (by norm_num [wState])
      (by rw [wState_meanDist]; norm_num)).1⟩

/-- Counterexample-independent part of claim C6, as amended: `finalize()`
returns the optimizer's current global best (a reference to live state, not
a decoupled copy); a later `step()` may change that particle, but only ever
to one of no greater cost. -/
theorem finalize_live_global_best (pr : Parameters)
    (data : List CalibrationData) (o : StepRand) (s : OptState) :
    finalize s = s.g
      ∧ (finalize (stepState pr data o s)).cost ≤ (finalize s).cost :=
  ⟨rfl, stepState_g_le pr data o s⟩

/-! ### Concrete computations on the identity sample -/

theorem rotZ_zero : rotZ 0 = 1 := by
  ext i j
  fin_cases i <;> fin_cases j <;>
    norm_num [rotZ, Matrix.one_apply, Fin.ext_iff]

theorem rotY_zero : rotY 0 = 1 := by
  ext i j
  fin_cases i <;> fin_cases j <;>
    norm_num [rotY, Matrix.one_apply, Fin.ext_iff]

theorem rotX_zero : rotX 0 = 1 := by
  ext i j
  fin_cases i <;> fin_cases j <;>
    norm_num [rotX, Matrix.one_apply, Fin.ext_iff]

theorem rpy2dcm_zero : rpy2dcm (fun _ => 0) = 1 := by
  unfold rpy2dcm
  rw [rotZ_zero, rotY_zero, rotX_zero, one_mul, one_mul]

theorem fin4_val_three : ((3 : Fin 4) : ℕ) = 3 := rfl

theorem atan2_zero_one : atan2 0 1 = 0 := by
  norm_num [atan2]

theorem transl_setCol3 (t : Fin 3 → ℝ) : transl (setCol3 1 t) = t := by
  funext k
  fin_cases k <;> norm_num [transl, setCol3, Fin.ext_iff, fin4_val_three]

theorem transl_one : transl (1 : Mat4) = fun _ => 0 := by
  funext k
  fin_cases k <;>
    norm_num [transl, Matrix.one_apply, Fin.ext_iff, fin4_val_three]

theorem dcm2rpy_setCol3_one (t : Fin 3 → ℝ) :
    dcm2rpy (setCol3 1 t) = fun _ => 0 := by
  funext k
  fin_cases k <;>
    norm_num [dcm2rpy, setCol3, Matrix.one_apply, Fin.ext_iff,
      atan2_zero_one, fin4_val_three]

theorem dcm2rpy_one : dcm2rpy 1 = fun _ => 0 := by
  funext k
  fin_cases k <;>
    norm_num [dcm2rpy, Matrix.one_apply, Fin.ext_iff, atan2_zero_one,
      fin4_val_three]

theorem SE3inv_setCol3_one (t : Fin 3 → ℝ) :
    SE3inv (setCol3 1 t) = setCol3 1 (fun k => -(t k)) := by
  ext i j
  fin_cases i <;> fin_cases j <;>
    norm_num [SE3inv, setCol3, Matrix.one_apply, Fin.ext_iff,
      Fin.sum_univ_three, fin4_val_three] <;> rfl

theorem setCol3_one_mul (t s : Fin 3 → ℝ) :
    setCol3 1 t * setCol3 1 s = setCol3 1 (fun k => t k + s k) := by
  ext i j
  fin_cases i <;> fin_cases j <;>
    norm_num [Matrix.mul_apply, setCol3, Matrix.one_apply, Fin.ext_iff,
      Fin.sum_univ_four, fin4_val_three] <;> first | rfl | ring

theorem norm3_tvec (c : ℝ) : norm3 (tvec c) = |c| := by
  rw [norm3, Fin.sum_univ_three]
  norm_num [tvec, Fin.ext_iff]
  exact Real.sqrt_sq_eq_abs c

theorem norm3_zero : norm3 (fun _ => 0) = 0 := by
  simp [norm3]

theorem posA_rpy (a : ℝ) :
    (fun k : Fin 3 => posA a ⟨(k : ℕ) + 3, by omega⟩) = fun _ => 0 := by
  funext k
  fin_cases k <;> norm_num [posA, Fin.ext_iff]

theorem posA_transl (a : ℝ) :
    (fun k : Fin 3 => posA a ⟨(k : ℕ), by omega⟩) = tvec a := by
  funext k
  fin_cases k <;> norm_num [posA, tvec, Fin.ext_iff]

theorem HrOf_posA (a : ℝ) : HrOf (posA a) = setCol3 1 (tvec a) := by
  unfold HrOf
  rw [posA_rpy, rpy2dcm_zero, posA_transl]

theorem fin6_val_five : ((5 : Fin 6) : ℕ) = 5 := rfl

theorem mirror_posA (a : ℝ) : mirrorVec (posA a) = posA (-a) := by
  funext j
  fin_cases j <;>
    norm_num [mirrorVec, posA, Function.update_apply, Fin.ext_iff,
      fin6_val_five]

theorem HlOf_posA (a : ℝ) : HlOf (posA a) = setCol3 1 (tvec (-a)) := by
  unfold HlOf
  rw [mirror_posA, posA_rpy, rpy2dcm_zero, posA_transl]

theorem Dof_id_posA (a : ℝ) :
    Dof idSample (posA a) = setCol3 1 (tvec (-(2 * a))) := by
  unfold Dof
  rw [show idSample.eye_kin_right = 1 from rfl,
    show idSample.eye_kin_left = 1 from rfl, one_mul, one_mul,
    HrOf_posA, HlOf_posA, SE3inv_setCol3_one, setCol3_one_mul]
  have hsum : (fun k : Fin 3 => -(tvec a k) + tvec (-a) k)
      = tvec (-(2 * a)) := by
    funext k
    simp only [tvec]
    by_cases hk : k = (0 : Fin 3)
    · rw [if_pos hk, if_pos hk, if_pos hk]
      ring
    · rw [if_neg hk, if_neg hk, if_neg hk]
      ring
  rw [hsum]

theorem translPart_posA (a : ℝ) : translPart (posA a) = tvec a := by
  funext k
  fin_cases k <;> norm_num [translPart, posA, tvec, Fin.ext_iff]

theorem sampleCost_id_posA (a : ℝ) :
    sampleCost idSample (posA a) = 2.1 * |a| := by
  unfold sampleCost
  rw [Dof_id_posA, translPart_posA,
    show idSample.fundamental = 1 from rfl, dcm2rpy_one,
    dcm2rpy_setCol3_one, transl_one, transl_setCol3]
  have h1 : (fun k => (fun _ : Fin 3 => (0 : ℝ)) k - tvec (-(2 * a)) k)
      = tvec (2 * a) := by
    funext k
    simp only [tvec]
    by_cases hk : k = (0 : Fin 3)
    · rw [if_pos hk, if_pos hk]
      ring
    · rw [if_neg hk, if_neg hk]
      ring
  have h2 : (fun k => (fun _ : Fin 3 => (0 : ℝ)) k
      - (fun _ : Fin 3 => (0 : ℝ)) k) = fun _ : Fin 3 => (0 : ℝ) := by
    funext k
    ring
  rw [h1, h2, norm3_tvec, norm3_tvec, norm3_zero, abs_mul]
  norm_num
  ring

theorem evalCost_id_posA (a : ℝ) :
    evalCost [idSample] (posA a) = 2.1 * |a| := by
  rw [evalCost_eq [idSample] (by simp) (posA a)]
  simp [sampleCost_id_posA]

/-- Witness for C10 on the one-sample identity store. -/
theorem regularization_per_sample_witness :
    ([idSample] : List CalibrationData) ≠ []
      ∧ evalCost [idSample] (fun _ => 0)
          = (([idSample] : List CalibrationData).map fun d =>
              norm3 (fun k =>
                  transl d.fundamental k - transl (Dof d fun _ => 0) k)
                + norm3 (fun k =>
                    dcm2rpy d.fundamental k - dcm2rpy (Dof d fun _ => 0) k)).sum
              / (([idSample] : List CalibrationData).length : ℝ)
            + 0.1 * norm3 (translPart fun _ => 0) :=
  ⟨by simp, regularization_per_sample [idSample] (by simp) (fun _ => 0)⟩

/-! ### The concrete counterexample run for finalize() -/

theorem fin6_val_three' : ((3 : Fin 6) : ℕ) = 3 := rfl

theorem fin6_val_four : ((4 : Fin 6) : ℕ) = 4 := rfl

theorem clamp_id {lo hi v : ℝ} (h1 : lo ≤ v) (h2 : v ≤ hi) :
    min (max v lo) hi = v := by
  rw [max_eq_left h1, min_eq_left h2]

theorem defaultLim_lo (j : Fin 6) : defaultLim j 0 ≤ 0 := by
  unfold defaultLim
  norm_num
  split_ifs <;> nlinarith [Real.pi_pos]

theorem defaultLim_hi (j : Fin 6) : 0 ≤ defaultLim j 1 := by
  unfold defaultLim
  norm_num
  split_ifs <;> nlinarith [Real.pi_pos]

theorem cState1_x0 : cState1.x 0 = ⟨posA 0.1, velA, ⊤⟩ := by
  have hpos : (fun j => randScalar (cParams.lim j 0) (cParams.lim j 1)
      (cInit.u 0 j)) = posA 0.1 := by
    funext j
    fin_cases j <;>
      norm_num [randScalar, cParams, defaultParameters, defaultLim, cInit,
        posA, Fin.ext_iff, fin6_val_three', fin6_val_four, fin6_val_five] <;>
      ring
  have hvel : (fun j : Fin 6 =>
      if (j : ℕ) < 3 then randScalar (-1e-4) 1e-4 (cInit.uv 0 j)
      else randScalar (-1) 1 (cInit.uv 0 j) * (π / 180)) = velA := by
    funext j
    fin_cases j <;>
      norm_num [randScalar, cInit, velA, Fin.ext_iff, fin6_val_three',
        fin6_val_four, fin6_val_five]
  show randomize cParams cInit.u cInit.uv 1 (fun _ => defaultParticle) 0 = _
  simp only [randomize]
  rw [if_pos (by norm_num : (0 : ℕ) < 1), hpos, hvel]
  rfl

theorem cState1_p0 : cState1.p 0 = cBest := by
  show (initFold [idSample] cState1.x 1).1 0 = cBest
  simp only [initFold, evaluate]
  rw [Function.update_same, cState1_x0]
  norm_num [cBest, evalCost_id_posA, abs_of_nonneg]

theorem cState1_g : cState1.g = cBest := by
  have hcond : ((evalCost [idSample] (cState1.x 0).pos : ℝ) : EReal)
      < defaultParticle.cost :=
    EReal.coe_lt_top _
  have hgp : cState1.g = cState1.p 0 := by
    show (initFold [idSample] cState1.x 1).2
      = (initFold [idSample] cState1.x 1).1 0
    simp only [initFold, evaluate]
    rw [Function.update_same, if_pos hcond]
  rw [hgp, cState1_p0]

theorem cVel : velUpd cParams (cStep.r1 0) (cStep.r2 0) cState1 0 = velB := by
  funext j
  simp only [velUpd, cState1_x0, cState1_p0, cState1_g, cBest]
  fin_cases j <;>
    norm_num [cParams, defaultParameters, cStep, velA, velB, posA,
      Fin.ext_iff, fin6_val_three', fin6_val_four, fin6_val_five]

theorem cPos : posUpd cParams (cStep.r1 0) (cStep.r2 0) cState1 0
    = posA 0.09992 := by
  funext j
  simp only [posUpd, cVel, cState1_x0]
  by_cases hj : j = 0
  · subst hj
    rw [show (⟨posA 0.1, velA, ⊤⟩ : Particle).pos 0 + velB 0 = 0.09992 from by
        norm_num [posA, velB],
      show cParams.lim 0 0 = -0.1 from by
        norm_num [cParams, defaultParameters, defaultLim],
      show cParams.lim 0 1 = 0.1 from by
        norm_num [cParams, defaultParameters, defaultLim],
      clamp_id (by norm_num) (by norm_num)]
    norm_num [posA]
  · rw [show (⟨posA 0.1, velA, ⊤⟩ : Particle).pos j + velB j = 0 from by
        simp [posA, velB, hj]]
    have h1 : cParams.lim j 0 ≤ 0 := defaultLim_lo j
    have h2 : (0 : ℝ) ≤ cParams.lim j 1 := defaultLim_hi j
    rw [clamp_id h1 h2]
    simp [posA, hj]

theorem cNextCost : evalCost [idSample]
    (posUpd cParams (cStep.r1 0) (cStep.r2 0) cState1 0) = 0.209832 := by
  rw [cPos, evalCost_id_posA]
  norm_num [abs_of_nonneg]

theorem cG : (stepState cParams [idSample] cStep cState1).g.pos 0
    = 0.09992 := by
  have hplt : ((evalCost [idSample]
      (posUpd cParams (cStep.r1 0) (cStep.r2 0) cState1 0) : ℝ) : EReal)
      < (cState1.p 0).cost := by
    rw [cNextCost, cState1_p0]
    show ((0.209832 : ℝ) : EReal) < ((0.21 : ℝ) : EReal)
    rw [EReal.coe_lt_coe_iff]
    norm_num
  have hglt : ((evalCost [idSample]
      (posUpd cParams (cStep.r1 0) (cStep.r2 0) cState1 0) : ℝ) : EReal)
      < cState1.g.cost := by
    rw [cNextCost, cState1_g]
    show ((0.209832 : ℝ) : EReal) < ((0.21 : ℝ) : EReal)
    rw [EReal.coe_lt_coe_iff]
    norm_num
  rw [stepState_g, show cState1.n = 0 + 1 from rfl, sweepPre,
    show sweepPre cParams [idSample] cStep.r1 cStep.r2 cState1 0 = cState1
      from rfl,
    stepOne_g_eq, if_pos ⟨hplt, hglt⟩, show (⟨posUpd cParams (cStep.r1 0)
      (cStep.r2 0) cState1 0, velUpd cParams (cStep.r1 0) (cStep.r2 0)
      cState1 0, ((evalCost [idSample] (posUpd cParams (cStep.r1 0)
      (cStep.r2 0) cState1 0) : ℝ) : EReal)⟩ : Particle).pos
      = posUpd cParams (cStep.r1 0) (cStep.r2 0) cState1 0 from rfl,
    cPos]
  norm_num [posA]

/-- Counterexample to claim C6: on a reachable one-particle state over the
identity calibration sample, the particle value obtained from `finalize()`
(the optimizer's global best, returned by const reference, not a decoupled
copy) is changed by the next `step()` call: its first position component
moves from 0.1 to 0.09992. -/
theorem finalize_not_decoupled :
    Reachable cParams [idSample] cState1
      ∧ finalize (stepState cParams [idSample] cStep cState1)
          ≠ finalize cState1 := by
  refine ⟨Reachable.init cInit, fun h => ?_⟩
  have h0 : (finalize (stepState cParams [idSample] cStep cState1)).pos 0
      = (finalize cState1).pos 0 := by rw [h]
  rw [show finalize cState1 = cState1.g from rfl, cState1_g,
    show (finalize (stepState cParams [idSample] cStep cState1)).pos 0
      = (stepState cParams [idSample] cStep cState1).g.pos 0 from rfl,
    cG] at h0
  norm_num [cBest, posA] at h0

end
